import Mathlib

/-!
Verification of the parallel copy engine of the `xcp` repository
(`libxcp/src/operations.rs`, `libxcp/src/drivers/parfile.rs`).

The Rust code is shallowly embedded: paths are lists of components,
file descriptors and the filesystem facade (`libfs`) are abstracted into
oracle functions describing what each facade call would return, and the
`StatusUpdater` sink is modelled by collecting the `StatusUpdate` values
passed to `send` (the collector itself never fails; a send failure from a
dropped receiver is not modelled).  Loops whose termination depends on the
oracles take a fuel argument; running out of fuel is reported by the
distinguished result `Res.spin`, so "for every fuel the result is `spin`"
expresses non-termination of the source loop.
-/

/-- A filesystem path, as its list of components. -/
abbrev FPath := List String

/-- `Reflink` from `operations.rs`: the reflink mode. -/
inductive Reflink where
  | Always
  | Auto
  | Never
deriving DecidableEq, Repr

/-- The fields of `config::Config` consulted by the copy engine. -/
structure Config where
  block_size : Nat
  reflink : Reflink
  no_clobber : Bool
  no_target_directory : Bool
  no_perms : Bool
  fsync : Bool
deriving DecidableEq, Repr

/-- The `XcpError` variants used by the copy engine (`errors.rs`). -/
inductive XcpError where
  | InvalidSource (msg : String)
  | InvalidArguments (msg : String)
  | DestinationExists (msg : String) (path : FPath)
  | UnknownFileType (path : FPath)
  | ReflinkFailed (detail : String)
  | CopyError (detail : String)
  | EarlyShutdown (msg : String)
deriving DecidableEq, Repr

/-- Errors propagated by `?`: either a structured `XcpError` or a raw
OS/io error (whose payload the model does not inspect). -/
inductive Err where
  | xcp (e : XcpError)
  | io
deriving DecidableEq, Repr

/-- `StatusUpdate` from `operations.rs`. -/
inductive StatusUpdate where
  | Copied (n : Nat)
  | Size (n : Nat)
  | Error (e : XcpError)
deriving DecidableEq, Repr

/-- `libfs::FileType`: classification of a directory entry from its
file-mode bits (repository code outside the verified files; variants as
listed by the spec and used by `parfile.rs`). -/
inductive FileType where
  | File
  | Symlink
  | Dir
  | Socket
  | Char
  | Fifo
  | Block
  | Other
deriving DecidableEq, Repr

/-- `Operation` from `operations.rs`: a work item sent from the walker to
the copy workers. -/
inductive Operation where
  | Copy (src dst : FPath)
  | Link (src dst : FPath)
  | Special (src dst : FPath)
deriving DecidableEq, Repr

/-- `u64` modulus: the `sent` counter is an `AtomicU64` and the additions
on it wrap. -/
def U64LIM : Nat := 2 ^ 64

/-- The mutable state of `ChannelUpdater`: the process-wide `sent`
counter (an `AtomicU64`, held mod `2^64`).  The channel itself is
modelled by the list of updates the `send` implementation forwards. -/
structure ChannelUpdater where
  config : Config
  sent : Nat
deriving DecidableEq, Repr

/-- `ChannelUpdater::send` from `operations.rs` (lines 218-233): for a
`Copied(bytes)` update it fetch-adds `bytes` into `sent` and forwards the
update only when the cumulative count crosses a `block_size` boundary;
every other update is forwarded unconditionally.  Returns the updated
state and the list of updates forwarded into the channel. -/
def ChannelUpdater.send (cu : ChannelUpdater) (update : StatusUpdate) :
    ChannelUpdater × List StatusUpdate :=
  match update with
  | StatusUpdate.Copied bytes =>
    let bsize := cu.config.block_size
    let prev_written := cu.sent
    let cu' := { cu with sent := (prev_written + bytes) % U64LIM }
    if ((prev_written + bytes) % U64LIM) / bsize > prev_written / bsize then
      (cu', [StatusUpdate.Copied bytes])
    else
      (cu', [])
  | u => (cu, [u])

/-- Claim C3: a `Copied(bytes)` send fetch-adds `bytes` into the `sent`
counter (u64 arithmetic, so mod `2^64`) and forwards the update if and
only if `(prev + bytes) / block_size > prev / block_size` with `prev` the
counter value before the add; `Size` and `Error` updates are forwarded
unconditionally and leave the counter unchanged. -/
theorem channelupdater_send_spec (cu : ChannelUpdater) (bytes : Nat) :
    ((cu.send (StatusUpdate.Copied bytes)).1.sent = (cu.sent + bytes) % U64LIM
      ∧ ((cu.send (StatusUpdate.Copied bytes)).2 = [StatusUpdate.Copied bytes]
          ↔ ((cu.sent + bytes) % U64LIM) / cu.config.block_size
              > cu.sent / cu.config.block_size)
      ∧ ((cu.send (StatusUpdate.Copied bytes)).2 = []
          ↔ ¬ ((cu.sent + bytes) % U64LIM) / cu.config.block_size
              > cu.sent / cu.config.block_size))
    ∧ (∀ n, cu.send (StatusUpdate.Size n) = (cu, [StatusUpdate.Size n]))
    ∧ (∀ e, cu.send (StatusUpdate.Error e) = (cu, [StatusUpdate.Error e])) := by
  refine ⟨?_, fun n => rfl, fun e => rfl⟩
  by_cases hc : ((cu.sent + bytes) % U64LIM) / cu.config.block_size
      > cu.sent / cu.config.block_size
  · refine ⟨?_, ?_, ?_⟩ <;> simp [ChannelUpdater.send, hc]
  · refine ⟨?_, ?_, ?_⟩ <;> simp [ChannelUpdater.send, hc]

/-- The two finalization actions a `CopyHandle` can perform when it is
released. -/
inductive FinalStep where
  | perms
  | fsyncStep
deriving DecidableEq, Repr

/-- `CopyHandle::finalise_copy` from `operations.rs` (lines 148-157):
copy permissions unless `no_perms`, then sync if `fsync`; each step can
fail and `?` aborts the rest.  `permRes`/`syncRes` are oracles for what
`copy_permissions` and `sync` would return; the returned list records the
facade calls actually performed, in order. -/
def finalise_copy (cfg : Config) (permRes syncRes : Except Unit Unit) :
    Except Err Unit × List FinalStep :=
  if !cfg.no_perms then
    match permRes with
    | Except.error _ => (Except.error Err.io, [FinalStep.perms])
    | Except.ok _ =>
      if cfg.fsync then
        match syncRes with
        | Except.error _ => (Except.error Err.io, [FinalStep.perms, FinalStep.fsyncStep])
        | Except.ok _ => (Except.ok (), [FinalStep.perms, FinalStep.fsyncStep])
      else
        (Except.ok (), [FinalStep.perms])
  else
    if cfg.fsync then
      match syncRes with
      | Except.error _ => (Except.error Err.io, [FinalStep.fsyncStep])
      | Except.ok _ => (Except.ok (), [FinalStep.fsyncStep])
    else
      (Except.ok (), [])

/-- `impl Drop for CopyHandle` from `operations.rs` (lines 160-167): the
destructor calls `finalise_copy` and only logs a failure; it returns
nothing.  The result is the list of finalization steps performed. -/
def CopyHandle.drop (cfg : Config) (permRes syncRes : Except Unit Unit) :
    Unit × List FinalStep :=
  ((), (finalise_copy cfg permRes syncRes).2)

/-- Rust scope semantics for a `CopyHandle` owned by a copy operation:
when the scope holding the handle exits with result `primary`, the
destructor runs and the scope still returns `primary` (the destructor has
no way to alter it). -/
def scope_exit_with_drop (cfg : Config) (permRes syncRes : Except Unit Unit)
    (primary : Except Err Nat) : Except Err Nat × List FinalStep :=
  (primary, (CopyHandle.drop cfg permRes syncRes).2)

/-- Whether an `Except Unit Unit` oracle result is a success. -/
def exceptOk : Except Unit Unit → Bool
  | Except.ok _ => true
  | Except.error _ => false

/-- A configuration with `no_perms = false` and `fsync = true`, used to
exercise the finalization path. -/
def cfgFin : Config :=
  { block_size := 4096, reflink := Reflink.Never, no_clobber := false,
    no_target_directory := false, no_perms := false, fsync := true }

/-- Claim C5, counterexample: with `no_perms = false` and `fsync = true`,
if the permission-copy step fails then `finalise_copy` returns early and
the destination is NOT synced, contradicting the claim that the
destination is synced whenever `fsync` is set. -/
theorem drop_skips_sync_on_perm_failure :
    (CopyHandle.drop cfgFin (Except.error ()) (Except.ok ())).2 = [FinalStep.perms]
    ∧ FinalStep.fsyncStep ∉ (CopyHandle.drop cfgFin (Except.error ()) (Except.ok ())).2 := by
  constructor
  · rfl
  · decide

/-- Claim C5 (amended): on every release of a `CopyHandle`, whatever the
primary copy result, the destructor runs `finalise_copy`: the permission
copy runs unless `no_perms` is set, and the destination is synced when
`fsync` is set, provided the permission step did not fail; an error from
either finalization step is never propagated and the primary result is
returned unchanged. -/
theorem drop_finalisation_spec (cfg : Config) (permRes syncRes : Except Unit Unit)
    (primary : Except Err Nat) :
    (scope_exit_with_drop cfg permRes syncRes primary).1 = primary
    ∧ (scope_exit_with_drop cfg permRes syncRes primary).2 =
        (if cfg.no_perms then [] else [FinalStep.perms])
          ++ (if cfg.fsync && (cfg.no_perms || exceptOk permRes)
              then [FinalStep.fsyncStep] else []) := by
  refine ⟨rfl, ?_⟩
  cases hp : cfg.no_perms
  · cases permRes
    · simp [scope_exit_with_drop, CopyHandle.drop, finalise_copy, exceptOk, hp]
    · cases hf : cfg.fsync
      · simp [scope_exit_with_drop, CopyHandle.drop, finalise_copy, exceptOk, hp, hf]
      · cases syncRes <;>
          simp [scope_exit_with_drop, CopyHandle.drop, finalise_copy, exceptOk, hp, hf]
  · cases hf : cfg.fsync
    · simp [scope_exit_with_drop, CopyHandle.drop, finalise_copy, hp, hf]
    · cases syncRes <;>
        simp [scope_exit_with_drop, CopyHandle.drop, finalise_copy, hp, hf]

/-- The error message used by `tree_walker` for the `no_clobber` check. -/
def noClobberMsg : String := "Destination file exists and --no-clobber is set."

/-- `tree_walker`'s per-source destination-base computation
(`operations.rs` lines 260-270): `sourcedir` is the last component of the
source path (failing with `InvalidSource` when there is none), and the
base is `dest.join(sourcedir)` when `dest` exists and
`no_target_directory` is unset, else `dest` itself.  `destExists` is the
oracle for `dest.exists()`. -/
def target_base_of (cfg : Config) (dest : FPath) (destExists : Bool)
    (source : FPath) : Except Err FPath :=
  match source.getLast? with
  | none => Except.error (Err.xcp (XcpError.InvalidSource "Failed to find source directory name."))
  | some sourcedir =>
    Except.ok (if destExists && !cfg.no_target_directory then dest ++ [sourcedir] else dest)

/-- One entry produced by the `WalkDir` traversal of a source tree, with
the oracle answers the walker consults for it: its path relative to the
source root (empty for the root itself), its `libfs::FileType`
classification, its `symlink_metadata` length, the `read_link` result
(meaningful for symlinks), and whether its computed destination currently
exists (`target.exists()`). -/
structure Entry where
  rel : FPath
  kind : FileType
  len : Nat
  linkTarget : FPath
  targetExists : Bool
deriving DecidableEq, Repr

deriving instance DecidableEq for Except

/-- What processing walker entries produces: progress updates sent,
operations enqueued on the work channel, directories created by
`create_dir_all`, and the walker's own result. -/
structure WalkOut where
  sends : List StatusUpdate
  ops : List Operation
  dirs : List FPath
  res : Except Err Unit
deriving DecidableEq, Repr

/-- Modelled from the spec: the `Block` arm of `tree_walker`'s file-kind
dispatch is not present in the `operations.rs` under verification (the
match there lists only `File`, `Symlink`, `Dir`, `Socket | Char | Fifo`
and `Other`, so the handling of `libfs::FileType::Block` is decided by
repository code outside these files).  Spec section 4.D: "`Block` →
treated as unsupported; raise `UnknownFileType`", i.e. the same outcome
as the `Other` arm. -/
def tree_walker_block_arm (target : FPath) : WalkOut :=
  ⟨[], [], [], Except.error (Err.xcp (XcpError.UnknownFileType target))⟩

/-- Processing of a single tree entry by `tree_walker`
(`operations.rs` lines 279-327): compute the target path (the target base
joined with the relative path unless that is empty), check `no_clobber`
against an existing destination, then dispatch on the entry's file type. -/
def walk_entry (cfg : Config) (source target_base : FPath) (e : Entry) : WalkOut :=
  let from_ := source ++ e.rel
  let target := if !e.rel.isEmpty then target_base ++ e.rel else target_base
  if cfg.no_clobber && e.targetExists then
    ⟨[StatusUpdate.Error (XcpError.DestinationExists noClobberMsg target)], [], [],
      Except.error (Err.xcp (XcpError.EarlyShutdown noClobberMsg))⟩
  else
    match e.kind with
    | FileType.File =>
      ⟨[StatusUpdate.Size e.len], [Operation.Copy from_ target], [], Except.ok ()⟩
    | FileType.Symlink =>
      ⟨[], [Operation.Link e.linkTarget target], [], Except.ok ()⟩
    | FileType.Dir =>
      ⟨[], [], [target], Except.ok ()⟩
    | FileType.Socket =>
      ⟨[], [Operation.Special from_ target], [], Except.ok ()⟩
    | FileType.Char =>
      ⟨[], [Operation.Special from_ target], [], Except.ok ()⟩
    | FileType.Fifo =>
      ⟨[], [Operation.Special from_ target], [], Except.ok ()⟩
    | FileType.Block =>
      tree_walker_block_arm target
    | FileType.Other =>
      ⟨[], [], [], Except.error (Err.xcp (XcpError.UnknownFileType target))⟩

/-- The walker's loop over the entries of one source tree: entries are
processed in order and the first failing entry stops the walk (`?` or
`return Err` inside the `for` loop). -/
def walk_entries (cfg : Config) (source target_base : FPath) : List Entry → WalkOut
  | [] => ⟨[], [], [], Except.ok ()⟩
  | e :: rest =>
    let o := walk_entry cfg source target_base e
    match o.res with
    | Except.ok _ =>
      let o' := walk_entries cfg source target_base rest
      ⟨o.sends ++ o'.sends, o.ops ++ o'.ops, o.dirs ++ o'.dirs, o'.res⟩
    | Except.error err => ⟨o.sends, o.ops, o.dirs, Except.error err⟩

/-- Claim C9: for every source path, the destination base is the source's
last path component joined onto `dest` when `dest` exists and
`no_target_directory` is unset, and `dest` verbatim otherwise; a source
path with no last component fails with `InvalidSource`. -/
theorem walker_target_base_spec (cfg : Config) (dest : FPath) (destExists : Bool)
    (source : FPath) :
    (source = [] →
      target_base_of cfg dest destExists source =
        Except.error (Err.xcp (XcpError.InvalidSource "Failed to find source directory name.")))
    ∧ (∀ d, source.getLast? = some d →
        target_base_of cfg dest destExists source =
          Except.ok (if destExists && !cfg.no_target_directory then dest ++ [d] else dest)) := by
  constructor
  · intro h
    subst h
    rfl
  · intro d hd
    unfold target_base_of
    rw [hd]

/-- Witness for claim C9 at concrete inputs: an empty source fails with
`InvalidSource`; source `s/t` into existing dest `d` yields base `d/t`. -/
theorem walker_target_base_spec_witness :
    target_base_of (Config.mk 4096 Reflink.Never false false false false) ["d"] true [] =
      Except.error (Err.xcp (XcpError.InvalidSource "Failed to find source directory name."))
    ∧ target_base_of (Config.mk 4096 Reflink.Never false false false false) ["d"] true ["s", "t"] =
      Except.ok ["d", "t"] :=
  ⟨(walker_target_base_spec (Config.mk 4096 Reflink.Never false false false false)
      ["d"] true []).1 rfl,
   (walker_target_base_spec (Config.mk 4096 Reflink.Never false false false false)
      ["d"] true ["s", "t"]).2 "t" rfl⟩

/-- Claim C6: when `no_clobber` is set and an entry's computed destination
exists, the walker sends exactly one `Error(DestinationExists)` update,
returns `EarlyShutdown`, and enqueues no work item for that entry or any
later one. -/
theorem walker_no_clobber_spec (cfg : Config) (source target_base : FPath)
    (e : Entry) (rest : List Entry)
    (hnc : cfg.no_clobber = true) (hex : e.targetExists = true) :
    walk_entries cfg source target_base (e :: rest) =
      ⟨[StatusUpdate.Error (XcpError.DestinationExists noClobberMsg
          (if !e.rel.isEmpty then target_base ++ e.rel else target_base))], [], [],
        Except.error (Err.xcp (XcpError.EarlyShutdown noClobberMsg))⟩ := by
  unfold walk_entries walk_entry
  simp [hnc, hex]

/-- Witness for claim C6 at a concrete input: a blocked entry followed by
a `File` entry produces one `DestinationExists` error, no operations and
`EarlyShutdown`. -/
theorem walker_no_clobber_spec_witness :
    walk_entries (Config.mk 4096 Reflink.Never true false false false) ["s"] ["d"]
        [Entry.mk ["a"] FileType.File 3 [] true,
         Entry.mk ["b"] FileType.File 4 [] false] =
      ⟨[StatusUpdate.Error (XcpError.DestinationExists noClobberMsg ["d", "a"])], [], [],
        Except.error (Err.xcp (XcpError.EarlyShutdown noClobberMsg))⟩ :=
  walker_no_clobber_spec (Config.mk 4096 Reflink.Never true false false false) ["s"] ["d"]
    (Entry.mk ["a"] FileType.File 3 [] true)
    [Entry.mk ["b"] FileType.File 4 [] false] rfl rfl

/-- Claim C8: a walker entry classified `Block` is handled exactly like an
`Other` entry, and (when the `no_clobber` check does not fire first) the
walker raises `UnknownFileType` for it, enqueuing no work item. -/
theorem walker_block_spec (cfg : Config) (source target_base : FPath) (e : Entry)
    (hk : e.kind = FileType.Block) :
    walk_entry cfg source target_base e =
      walk_entry cfg source target_base { e with kind := FileType.Other }
    ∧ ((cfg.no_clobber && e.targetExists) = false →
        walk_entry cfg source target_base e =
          ⟨[], [], [], Except.error (Err.xcp (XcpError.UnknownFileType
              (if !e.rel.isEmpty then target_base ++ e.rel else target_base)))⟩) := by
  constructor
  · cases hg : cfg.no_clobber && e.targetExists
    · unfold walk_entry
      simp [hg, hk, tree_walker_block_arm]
    · unfold walk_entry
      simp [hg]
  · intro hg
    unfold walk_entry
    simp [hg, hk, tree_walker_block_arm]

/-- Witness for claim C8 at a concrete input: a `Block` entry is treated
like an `Other` entry and raises `UnknownFileType`. -/
theorem walker_block_spec_witness :
    walk_entry (Config.mk 4096 Reflink.Never false false false false) ["s"] ["d"]
        (Entry.mk ["a"] FileType.Block 0 [] false) =
      ⟨[], [], [], Except.error (Err.xcp (XcpError.UnknownFileType ["d", "a"]))⟩ :=
  (walker_block_spec (Config.mk 4096 Reflink.Never false false false false) ["s"] ["d"]
    (Entry.mk ["a"] FileType.Block 0 [] false) rfl).2 rfl

/-- Result of a modelled fallible loop: success, propagated error, or
`spin`, meaning the loop was still running when the fuel ran out (so for
every fuel the source loop has not terminated). -/
inductive Res (α : Type) where
  | ok (val : α)
  | err (e : Err)
  | spin
deriving DecidableEq, Repr

/-- A call into the filesystem facade, recorded so that theorems can
state which strategies actually ran. -/
inductive FacadeCall where
  | reflinkCall
  | probablySparseCall
  | cfbCall (idx req : Nat)
  | nssCall (pos : Nat)
deriving DecidableEq, Repr

/-- Outcome of a modelled copy routine: its result, the `StatusUpdate`
values it passed to `updates.send` in order, the facade calls it made in
order, and the next unused `copy_file_bytes` call index. -/
structure Outcome (α : Type) where
  res : Res α
  sends : List StatusUpdate
  calls : List FacadeCall
  next : Nat
deriving DecidableEq, Repr

/-- Prepend earlier sends and facade calls to an outcome. -/
def Outcome.pre {α : Type} (s : List StatusUpdate) (c : List FacadeCall)
    (o : Outcome α) : Outcome α :=
  ⟨o.res, s ++ o.sends, c ++ o.calls, o.next⟩

/-- The oracle for `libfs::copy_file_bytes`: given the index of the call
(abstracting the descriptor positions) and the requested byte count, the
number of bytes the syscall transfers, or an error. -/
abbrev CfbOracle := Nat → Nat → Except Unit Nat

/-- The oracle for `libfs::next_sparse_segments`: given the probe
position, the `(next_data, next_hole)` pair, or an error. -/
abbrev NssOracle := Nat → Except Unit (Nat × Nat)

/-- `CopyHandle::copy_bytes` from `operations.rs` (lines 86-96): loop
while `written < len`, request `min(len - written, block_size)` bytes from
`copy_file_bytes`, add the returned count to `written` and send
`Copied(returned)`.  `idx` numbers the `copy_file_bytes` calls; `fuel`
bounds the number of iterations modelled (the source loop has no bound of
its own). -/
def copy_bytes (cfg : Config) (cfb : CfbOracle) (len : Nat) :
    Nat → Nat → Nat → Outcome Nat
  | 0, idx, _ => ⟨Res.spin, [], [], idx⟩
  | fuel + 1, idx, written =>
    if written < len then
      match cfb idx (min (len - written) cfg.block_size) with
      | Except.error _ =>
        ⟨Res.err Err.io, [], [FacadeCall.cfbCall idx (min (len - written) cfg.block_size)],
          idx + 1⟩
      | Except.ok bytes =>
        Outcome.pre [StatusUpdate.Copied bytes]
          [FacadeCall.cfbCall idx (min (len - written) cfg.block_size)]
          (copy_bytes cfg cfb len fuel (idx + 1) (written + bytes))
    else
      ⟨Res.ok written, [], [], idx⟩

/-- `CopyHandle::copy_sparse` from `operations.rs` (lines 99-111): loop
while `pos < len`, ask `next_sparse_segments` for the next data run
`(next_data, next_hole)`, copy `next_hole - next_data` bytes via
`copy_bytes`, and continue from `next_hole`; returns `len` on completion.
`bfuel` is the fuel handed to each inner `copy_bytes` loop. -/
def copy_sparse (cfg : Config) (cfb : CfbOracle) (nss : NssOracle) (len bfuel : Nat) :
    Nat → Nat → Nat → Outcome Nat
  | 0, idx, _ => ⟨Res.spin, [], [], idx⟩
  | fuel + 1, idx, pos =>
    if pos < len then
      match nss pos with
      | Except.error _ => ⟨Res.err Err.io, [], [FacadeCall.nssCall pos], idx⟩
      | Except.ok (next_data, next_hole) =>
        let inner := copy_bytes cfg cfb (next_hole - next_data) bfuel idx 0
        match inner.res with
        | Res.ok _written =>
          Outcome.pre inner.sends (FacadeCall.nssCall pos :: inner.calls)
            (copy_sparse cfg cfb nss len bfuel fuel inner.next next_hole)
        | Res.err e => ⟨Res.err e, inner.sends, FacadeCall.nssCall pos :: inner.calls, inner.next⟩
        | Res.spin => ⟨Res.spin, inner.sends, FacadeCall.nssCall pos :: inner.calls, inner.next⟩
    else
      ⟨Res.ok len, [], [], idx⟩

/-- `CopyHandle::try_reflink` from `operations.rs` (lines 113-133): in
`Always` or `Auto` mode call `reflink` (oracle `rl`); `true` succeeds,
`false` is `ReflinkFailed` under `Always` and a fall-through under
`Auto`; in `Never` mode return `false` without calling `reflink`. -/
def try_reflink (cfg : Config) (rl : Except Unit Bool) (idx : Nat) : Outcome Bool :=
  match cfg.reflink with
  | Reflink.Always | Reflink.Auto =>
    match rl with
    | Except.error _ => ⟨Res.err Err.io, [], [FacadeCall.reflinkCall], idx⟩
    | Except.ok worked =>
      if worked then
        ⟨Res.ok true, [], [FacadeCall.reflinkCall], idx⟩
      else if cfg.reflink = Reflink.Always then
        ⟨Res.err (Err.xcp (XcpError.ReflinkFailed "reflink declined")), [],
          [FacadeCall.reflinkCall], idx⟩
      else
        ⟨Res.ok false, [], [FacadeCall.reflinkCall], idx⟩
  | Reflink.Never => ⟨Res.ok false, [], [], idx⟩

/-- The oracles a `CopyHandle` copy consults, plus the length captured in
the handle's metadata at open time and the fuel for the two loops. -/
structure CopyEnv where
  rl : Except Unit Bool
  sp : Except Unit Bool
  cfb : CfbOracle
  nss : NssOracle
  len : Nat
  bfuel : Nat
  sfuel : Nat

/-- The part of `CopyHandle::copy_file` after the reflink attempt, as a
function of the reflink attempt's outcome `r`: return `metadata.len()`
when the reflink succeeded, otherwise ask `probably_sparse` (oracle `sp`)
and run `copy_sparse` or a dense `copy_bytes` over the whole length. -/
def copy_file_fallback (cfg : Config) (env : CopyEnv) (r : Outcome Bool) : Outcome Nat :=
  match r.res with
  | Res.err e => ⟨Res.err e, r.sends, r.calls, r.next⟩
  | Res.spin => ⟨Res.spin, r.sends, r.calls, r.next⟩
  | Res.ok worked =>
    if worked then
      ⟨Res.ok env.len, r.sends, r.calls, r.next⟩
    else
      match env.sp with
      | Except.error _ =>
        ⟨Res.err Err.io, r.sends, r.calls ++ [FacadeCall.probablySparseCall], r.next⟩
      | Except.ok true =>
        Outcome.pre r.sends (r.calls ++ [FacadeCall.probablySparseCall])
          (copy_sparse cfg env.cfb env.nss env.len env.bfuel env.sfuel r.next 0)
      | Except.ok false =>
        Outcome.pre r.sends (r.calls ++ [FacadeCall.probablySparseCall])
          (copy_bytes cfg env.cfb env.len env.bfuel r.next 0)

/-- `CopyHandle::copy_file` from `operations.rs` (lines 135-146): try a
reflink first, then fall back to the sparse or dense byte path. -/
def copy_file (cfg : Config) (env : CopyEnv) (idx : Nat) : Outcome Nat :=
  copy_file_fallback cfg env (try_reflink cfg env.rl idx)

/-- Sum of the payloads of the `Copied` updates in a send trace. -/
def sumCopied : List StatusUpdate → Nat
  | [] => 0
  | StatusUpdate.Copied n :: rest => n + sumCopied rest
  | StatusUpdate.Size _ :: rest => sumCopied rest
  | StatusUpdate.Error _ :: rest => sumCopied rest

/-- The facade contract on `copy_file_bytes`: a call never transfers more
bytes than it was asked for. -/
def cfbBounded (cfb : CfbOracle) : Prop :=
  ∀ i r n, cfb i r = Except.ok n → n ≤ r

theorem sumCopied_append (a b : List StatusUpdate) :
    sumCopied (a ++ b) = sumCopied a + sumCopied b := by
  induction a with
  | nil => simp [sumCopied]
  | cons u rest ih =>
    cases u with
    | Copied n => simp [sumCopied, ih]; omega
    | Size n => simp [sumCopied, ih]
    | Error e => simp [sumCopied, ih]

/-- If the byte-copy loop finishes, the bytes it announced through
`Copied` updates account exactly for the growth of `written`. -/
theorem copy_bytes_ok_sum (cfg : Config) (cfb : CfbOracle) (len : Nat) :
    ∀ fuel idx written v,
      (copy_bytes cfg cfb len fuel idx written).res = Res.ok v →
      v = written + sumCopied (copy_bytes cfg cfb len fuel idx written).sends := by
  intro fuel
  induction fuel with
  | zero =>
    intro idx written v h
    exact absurd h (by simp [copy_bytes])
  | succ n ih =>
    intro idx written v h
    unfold copy_bytes at h ⊢
    by_cases hlt : written < len
    · rw [if_pos hlt] at h ⊢
      cases hc : cfb idx (min (len - written) cfg.block_size) with
      | error e =>
        rw [hc] at h
        simp at h
      | ok bytes =>
        rw [hc] at h
        simp only [Outcome.pre] at h ⊢
        have := ih (idx + 1) (written + bytes) v h
        simp [sumCopied]
        omega
    · rw [if_neg hlt] at h ⊢
      simp at h ⊢
      simp [sumCopied]
      omega

/-- If the byte-copy loop finishes and `copy_file_bytes` honours its
contract, the final `written` is exactly the requested `len`. -/
theorem copy_bytes_ok_eq_len (cfg : Config) (cfb : CfbOracle) (len : Nat)
    (H : cfbBounded cfb) :
    ∀ fuel idx written v, written ≤ len →
      (copy_bytes cfg cfb len fuel idx written).res = Res.ok v → v = len := by
  intro fuel
  induction fuel with
  | zero =>
    intro idx written v hw h
    exact absurd h (by simp [copy_bytes])
  | succ n ih =>
    intro idx written v hw h
    unfold copy_bytes at h
    by_cases hlt : written < len
    · rw [if_pos hlt] at h
      cases hc : cfb idx (min (len - written) cfg.block_size) with
      | error e =>
        rw [hc] at h
        simp at h
      | ok bytes =>
        rw [hc] at h
        simp only [Outcome.pre] at h
        have hb := H _ _ _ hc
        have hwb : written + bytes ≤ len := by
          have : bytes ≤ len - written := le_trans hb (min_le_left _ _)
          omega
        exact ih (idx + 1) (written + bytes) v hwb h
    · rw [if_neg hlt] at h
      simp at h
      omega

/-- The byte-copy loop only ever sends `Copied` updates. -/
theorem copy_bytes_sends_copied (cfg : Config) (cfb : CfbOracle) (len : Nat) :
    ∀ fuel idx written u,
      u ∈ (copy_bytes cfg cfb len fuel idx written).sends →
      ∃ k, u = StatusUpdate.Copied k := by
  intro fuel
  induction fuel with
  | zero =>
    intro idx written u hu
    simp [copy_bytes] at hu
  | succ n ih =>
    intro idx written u hu
    unfold copy_bytes at hu
    by_cases hlt : written < len
    · rw [if_pos hlt] at hu
      cases hc : cfb idx (min (len - written) cfg.block_size) with
      | error e =>
        rw [hc] at hu
        simp at hu
      | ok bytes =>
        rw [hc] at hu
        simp only [Outcome.pre, List.mem_append, List.mem_singleton] at hu
        rcases hu with hu | hu
        · exact ⟨bytes, hu⟩
        · exact ih (idx + 1) (written + bytes) u hu
    · rw [if_neg hlt] at hu
      simp at hu

/-- The sparse loop only ever sends `Copied` updates. -/
theorem copy_sparse_sends_copied (cfg : Config) (cfb : CfbOracle) (nss : NssOracle)
    (len bfuel : Nat) :
    ∀ fuel idx pos u,
      u ∈ (copy_sparse cfg cfb nss len bfuel fuel idx pos).sends →
      ∃ k, u = StatusUpdate.Copied k := by
  intro fuel
  induction fuel with
  | zero =>
    intro idx pos u hu
    simp [copy_sparse] at hu
  | succ n ih =>
    intro idx pos u hu
    unfold copy_sparse at hu
    by_cases hlt : pos < len
    · rw [if_pos hlt] at hu
      cases hn : nss pos with
      | error e =>
        rw [hn] at hu
        simp at hu
      | ok dh =>
        rw [hn] at hu
        cases hin : (copy_bytes cfg cfb (dh.2 - dh.1) bfuel idx 0).res with
        | ok w =>
          simp only [hin, Outcome.pre, List.mem_append] at hu
          rcases hu with hu | hu
          · exact copy_bytes_sends_copied cfg cfb (dh.2 - dh.1) bfuel idx 0 u hu
          · exact ih _ _ u hu
        | err e =>
          simp only [hin] at hu
          exact copy_bytes_sends_copied cfg cfb (dh.2 - dh.1) bfuel idx 0 u hu
        | spin =>
          simp only [hin] at hu
          exact copy_bytes_sends_copied cfg cfb (dh.2 - dh.1) bfuel idx 0 u hu
    · rw [if_neg hlt] at hu
      simp at hu

/-- A successful sparse copy always reports the full metadata length. -/
theorem copy_sparse_ok_val (cfg : Config) (cfb : CfbOracle) (nss : NssOracle)
    (len bfuel : Nat) :
    ∀ fuel idx pos v,
      (copy_sparse cfg cfb nss len bfuel fuel idx pos).res = Res.ok v → v = len := by
  intro fuel
  induction fuel with
  | zero =>
    intro idx pos v h
    exact absurd h (by simp [copy_sparse])
  | succ n ih =>
    intro idx pos v h
    unfold copy_sparse at h
    by_cases hlt : pos < len
    · rw [if_pos hlt] at h
      cases hn : nss pos with
      | error e =>
        rw [hn] at h
        simp at h
      | ok dh =>
        rw [hn] at h
        cases hin : (copy_bytes cfg cfb (dh.2 - dh.1) bfuel idx 0).res with
        | ok w =>
          simp only [hin, Outcome.pre] at h
          exact ih _ _ v h
        | err e => simp [hin] at h
        | spin => simp [hin] at h
    · rw [if_neg hlt] at h
      simp at h
      omega

/-- Follows the spec's words for the sparse path (section 4.C, step 2):
the total data bytes visited when iterating `next_sparse_segments` from a
position, i.e. the sum of `next_hole - next_data` over the data runs;
`none` when the iteration does not finish within the given fuel. -/
def specDataBytes (nss : NssOracle) (len : Nat) : Nat → Nat → Option Nat
  | 0, _ => none
  | fuel + 1, pos =>
    if pos < len then
      match nss pos with
      | Except.error _ => none
      | Except.ok (next_data, next_hole) =>
        (specDataBytes nss len fuel next_hole).map (fun s => (next_hole - next_data) + s)
    else some 0

/-- A successful sparse copy sends `Copied` updates totalling exactly the
data-segment bytes described by the spec's sparse walk. -/
theorem copy_sparse_ok_sum (cfg : Config) (cfb : CfbOracle) (nss : NssOracle)
    (len bfuel : Nat) (H : cfbBounded cfb) :
    ∀ fuel idx pos v,
      (copy_sparse cfg cfb nss len bfuel fuel idx pos).res = Res.ok v →
      specDataBytes nss len fuel pos =
        some (sumCopied (copy_sparse cfg cfb nss len bfuel fuel idx pos).sends) := by
  intro fuel
  induction fuel with
  | zero =>
    intro idx pos v h
    exact absurd h (by simp [copy_sparse])
  | succ n ih =>
    intro idx pos v h
    unfold copy_sparse at h ⊢
    unfold specDataBytes
    by_cases hlt : pos < len
    · rw [if_pos hlt] at h ⊢
      rw [if_pos hlt]
      cases hn : nss pos with
      | error e =>
        rw [hn] at h
        simp at h
      | ok dh =>
        rw [hn] at h
        cases hin : (copy_bytes cfg cfb (dh.2 - dh.1) bfuel idx 0).res with
        | ok w =>
          simp only [hin, Outcome.pre] at h ⊢
          have hrec := ih _ _ v h
          have hsum := copy_bytes_ok_sum cfg cfb (dh.2 - dh.1) bfuel idx 0 w hin
          have hlen := copy_bytes_ok_eq_len cfg cfb (dh.2 - dh.1) H bfuel idx 0 w
            (Nat.zero_le _) hin
          rw [sumCopied_append, hrec]
          have hws : sumCopied (copy_bytes cfg cfb (dh.2 - dh.1) bfuel idx 0).sends
              = dh.2 - dh.1 := by omega
          simp [hws]
        | err e => simp [hin] at h
        | spin => simp [hin] at h
    · rw [if_neg hlt] at h ⊢
      rw [if_neg hlt]
      simp [sumCopied]

/-- Claim C2 (evaluating the code at the failing input): `copy_bytes` has
no short-read check.  With `copy_file_bytes` returning `Ok(0)` on every
call and `len = 1`, `written` never advances and the loop neither
completes nor returns an error for any number of iterations — the source
loop spins forever instead of failing with `ShortRead`. -/
theorem copy_bytes_zero_return_spins (cfg : Config) :
    ∀ fuel idx,
      (copy_bytes cfg (fun _ _ => Except.ok 0) 1 fuel idx 0).res = Res.spin := by
  intro fuel
  induction fuel with
  | zero =>
    intro idx
    rfl
  | succ n ih =>
    intro idx
    unfold copy_bytes
    simp [Outcome.pre, ih]

/-- A dense-copy environment: reflink declined, `probably_sparse` false,
and a `copy_file_bytes` that transfers exactly what is requested; file
length 5, ample fuel. -/
def envDense : CopyEnv :=
  ⟨Except.ok false, Except.ok false, fun _ r => Except.ok r,
    fun _ => Except.ok (0, 0), 5, 9, 9⟩

/-- Claim C10: whenever `copy_file` returns successfully — via reflink,
sparse or dense strategy — the returned byte count equals the source
length captured in the handle's metadata at open time, given that each
`copy_file_bytes` call transfers at most the requested count. -/
theorem copy_file_ok_returns_len (cfg : Config) (env : CopyEnv) (idx v : Nat)
    (H : cfbBounded env.cfb)
    (h : (copy_file cfg env idx).res = Res.ok v) : v = env.len := by
  unfold copy_file at h
  rcases hrw : try_reflink cfg env.rl idx with ⟨rres, rsends, rcalls, rnext⟩
  rw [hrw] at h
  unfold copy_file_fallback at h
  cases rres with
  | err e => simp at h
  | spin => simp at h
  | ok worked =>
    cases worked
    · simp only [Bool.false_eq_true, if_false] at h
      cases hsp : env.sp with
      | error e =>
        rw [hsp] at h
        simp at h
      | ok b =>
        rw [hsp] at h
        cases b
        · simp only [Outcome.pre] at h
          exact copy_bytes_ok_eq_len cfg env.cfb env.len H env.bfuel rnext 0 v
            (Nat.zero_le _) h
        · simp only [Outcome.pre] at h
          exact copy_sparse_ok_val cfg env.cfb env.nss env.len env.bfuel env.sfuel rnext 0 v h
    · simp at h
      omega

/-- Witness for claim C10 at a concrete input: a dense copy of a 5-byte
file with block size 4 succeeds, and the theorem yields that the returned
count is the handle length. -/
theorem copy_file_ok_returns_len_witness :
    (copy_file (Config.mk 4 Reflink.Never false false false false) envDense 0).res = Res.ok 5
    ∧ 5 = envDense.len :=
  ⟨rfl,
   copy_file_ok_returns_len (Config.mk 4 Reflink.Never false false false false) envDense 0 5
     (fun _ _ n hn => by injection hn with hn; omega) rfl⟩

/-- Claim C4: when the filesystem declines a reflink (`reflink` returns
`false`), `reflink_mode = Always` fails the file with `ReflinkFailed`,
performing no byte copy (the only facade call is the reflink itself) and
sending no updates; `reflink_mode = Auto` instead falls through to the
sparse or dense byte-copy path. -/
theorem copy_file_reflink_declined_spec (cfg : Config) (env : CopyEnv) (idx : Nat)
    (hrl : env.rl = Except.ok false) :
    (cfg.reflink = Reflink.Always →
      copy_file cfg env idx =
        ⟨Res.err (Err.xcp (XcpError.ReflinkFailed "reflink declined")), [],
          [FacadeCall.reflinkCall], idx⟩)
    ∧ (cfg.reflink = Reflink.Auto → ∀ b, env.sp = Except.ok b →
        copy_file cfg env idx =
          Outcome.pre [] [FacadeCall.reflinkCall, FacadeCall.probablySparseCall]
            (if b then copy_sparse cfg env.cfb env.nss env.len env.bfuel env.sfuel idx 0
             else copy_bytes cfg env.cfb env.len env.bfuel idx 0)) := by
  constructor
  · intro hm
    unfold copy_file try_reflink
    rw [hm, hrl]
    rfl
  · intro hm b hsp
    unfold copy_file try_reflink
    rw [hm, hrl]
    cases b
    · simp [copy_file_fallback, hsp, Outcome.pre]
    · simp [copy_file_fallback, hsp, Outcome.pre]

/-- An environment whose reflink oracle declines; the other oracles are
as in `envDense`. -/
def envDeclined : CopyEnv :=
  ⟨Except.ok false, Except.ok false, fun _ r => Except.ok r,
    fun _ => Except.ok (0, 0), 5, 9, 9⟩

/-- Witness for claim C4 at concrete inputs: with `Always` the declined
reflink yields `ReflinkFailed` and only the reflink facade call; with
`Auto` it becomes the dense byte path. -/
theorem copy_file_reflink_declined_spec_witness :
    copy_file (Config.mk 4 Reflink.Always false false false false) envDeclined 0 =
      ⟨Res.err (Err.xcp (XcpError.ReflinkFailed "reflink declined")), [],
        [FacadeCall.reflinkCall], 0⟩
    ∧ copy_file (Config.mk 4 Reflink.Auto false false false false) envDeclined 0 =
      Outcome.pre [] [FacadeCall.reflinkCall, FacadeCall.probablySparseCall]
        (copy_bytes (Config.mk 4 Reflink.Auto false false false false)
          envDeclined.cfb envDeclined.len envDeclined.bfuel 0 0) :=
  ⟨(copy_file_reflink_declined_spec (Config.mk 4 Reflink.Always false false false false)
      envDeclined 0 rfl).1 rfl,
   by
    have h := (copy_file_reflink_declined_spec (Config.mk 4 Reflink.Auto false false false false)
      envDeclined 0 rfl).2 rfl false rfl
    simpa using h⟩

/-- The oracles a worker (or `copy_single`) consults when executing one
operation: the copy-handle oracles, the result of `CopyHandle::new`
(open + create + allocate), and the results of `symlink`, `remove_file`
and `copy_node`, plus the `to.exists()` answer for special files. -/
structure WorkerEnv where
  copy : CopyEnv
  handleNew : Except Unit Unit
  symlinkRes : Except Unit Unit
  removeRes : Except Unit Unit
  copyNodeRes : Except Unit Unit
  specialDestExists : Bool

/-- Abstraction of `e.to_string()` for the message the worker packs into
`CopyError`. -/
def errDetail : Err → String
  | Err.xcp _ => "xcp error"
  | Err.io => "io error"

/-- One iteration of `copy_worker` from `parfile.rs` (lines 128-168):
dispatch one received `Operation`.  `Copy` builds a `CopyHandle` and runs
`copy_file`, sending back an `Error(CopyError)` update and failing the
worker on error; `Link` runs `symlink` and discards its result
(`let _r = symlink(&from, &to)`); `Special` checks `no_clobber` /
removes an existing destination and then runs `copy_node`. -/
def copy_worker_step (cfg : Config) (wenv : WorkerEnv) (op : Operation) :
    Res Unit × List StatusUpdate :=
  match op with
  | Operation.Copy _ _ =>
    match wenv.handleNew with
    | Except.error _ =>
      (Res.err Err.io, [StatusUpdate.Error (XcpError.CopyError (errDetail Err.io))])
    | Except.ok _ =>
      match copy_file cfg wenv.copy 0 with
      | ⟨Res.ok _, sends, _, _⟩ => (Res.ok (), sends)
      | ⟨Res.err e, sends, _, _⟩ =>
        (Res.err e, sends ++ [StatusUpdate.Error (XcpError.CopyError (errDetail e))])
      | ⟨Res.spin, sends, _, _⟩ => (Res.spin, sends)
  | Operation.Link _ _ =>
    match wenv.symlinkRes with
    | Except.ok _ => (Res.ok (), [])
    | Except.error _ => (Res.ok (), [])
  | Operation.Special _ dst =>
    if wenv.specialDestExists then
      if cfg.no_clobber then
        (Res.err (Err.xcp (XcpError.DestinationExists noClobberMsg dst)), [])
      else
        match wenv.removeRes with
        | Except.error _ => (Res.err Err.io, [])
        | Except.ok _ =>
          match wenv.copyNodeRes with
          | Except.error _ => (Res.err Err.io, [])
          | Except.ok _ => (Res.ok (), [])
    else
      match wenv.copyNodeRes with
      | Except.error _ => (Res.err Err.io, [])
      | Except.ok _ => (Res.ok (), [])

/-- The `for op in work` loop of `copy_worker`: operations are processed
in order and the first error aborts the worker. -/
def run_worker (cfg : Config) (wenv : WorkerEnv) : List Operation → Res Unit × List StatusUpdate
  | [] => (Res.ok (), [])
  | op :: rest =>
    match copy_worker_step cfg wenv op with
    | (Res.ok _, s) =>
      match run_worker cfg wenv rest with
      | (r, s') => (r, s ++ s')
    | (Res.err e, s) => (Res.err e, s)
    | (Res.spin, s) => (Res.spin, s)

/-- `Driver::copy_single` from `parfile.rs` (lines 85-123): dispatch on
the source's file type: regular files get a `CopyHandle` + `copy_file`;
symlinks run `symlink` and discard the result (`let _r = ...`);
directories are `InvalidArguments`; special files go through the
`no_clobber` / remove / `copy_node` sequence; `Block` and `Other` are
`UnknownFileType`. -/
def copy_single (cfg : Config) (wenv : WorkerEnv) (ft : FileType) (source dest : FPath) :
    Res Unit × List StatusUpdate :=
  match ft with
  | FileType.File =>
    match wenv.handleNew with
    | Except.error _ => (Res.err Err.io, [])
    | Except.ok _ =>
      match copy_file cfg wenv.copy 0 with
      | ⟨Res.ok _, sends, _, _⟩ => (Res.ok (), sends)
      | ⟨Res.err e, sends, _, _⟩ => (Res.err e, sends)
      | ⟨Res.spin, sends, _, _⟩ => (Res.spin, sends)
  | FileType.Symlink =>
    match wenv.symlinkRes with
    | Except.ok _ => (Res.ok (), [])
    | Except.error _ => (Res.ok (), [])
  | FileType.Dir =>
    (Res.err (Err.xcp (XcpError.InvalidArguments
      "Attempt to copy directory in single-file operation")), [])
  | FileType.Socket | FileType.Char | FileType.Fifo =>
    if wenv.specialDestExists then
      if cfg.no_clobber then
        (Res.err (Err.xcp (XcpError.DestinationExists noClobberMsg dest)), [])
      else
        match wenv.removeRes with
        | Except.error _ => (Res.err Err.io, [])
        | Except.ok _ =>
          match wenv.copyNodeRes with
          | Except.error _ => (Res.err Err.io, [])
          | Except.ok _ => (Res.ok (), [])
    else
      match wenv.copyNodeRes with
      | Except.error _ => (Res.err Err.io, [])
      | Except.ok _ => (Res.ok (), [])
  | FileType.Block =>
    (Res.err (Err.xcp (XcpError.UnknownFileType source)), [])
  | FileType.Other =>
    (Res.err (Err.xcp (XcpError.UnknownFileType source)), [])

/-- Claim C7: whatever the `symlink` call returns — success or failure —
a worker processing `Link(target, path)` continues with success and sends
nothing, and `copy_single` on a symlink source returns success: the
symlink error is discarded in both places. -/
theorem symlink_failure_ignored (cfg : Config) (wenv : WorkerEnv)
    (t p source dest : FPath) :
    copy_worker_step cfg wenv (Operation.Link t p) = (Res.ok (), [])
    ∧ copy_single cfg wenv FileType.Symlink source dest = (Res.ok (), []) := by
  constructor
  · unfold copy_worker_step
    cases wenv.symlinkRes <;> rfl
  · unfold copy_single
    cases wenv.symlinkRes <;> rfl

theorem try_reflink_sends (cfg : Config) (rl : Except Unit Bool) (idx : Nat) :
    (try_reflink cfg rl idx).sends = [] := by
  unfold try_reflink
  cases cfg.reflink with
  | Always =>
    cases rl with
    | error e => rfl
    | ok w => cases w <;> simp
  | Auto =>
    cases rl with
    | error e => rfl
    | ok w => cases w <;> simp
  | Never => rfl

/-- `copy_file` itself sends only `Copied` updates (the reflink attempt
sends nothing, the byte loops send `Copied`). -/
theorem copy_file_sends_copied (cfg : Config) (env : CopyEnv) (idx : Nat) :
    ∀ u ∈ (copy_file cfg env idx).sends, ∃ k, u = StatusUpdate.Copied k := by
  intro u hu
  unfold copy_file copy_file_fallback at hu
  rcases hr : try_reflink cfg env.rl idx with ⟨rres, rsends, rcalls, rnext⟩
  have hs : rsends = [] := by
    have h0 := try_reflink_sends cfg env.rl idx
    rw [hr] at h0
    exact h0
  rw [hr] at hu
  subst hs
  cases rres with
  | err e => simp at hu
  | spin => simp at hu
  | ok worked =>
    cases worked
    · cases hsp : env.sp with
      | error e =>
        rw [hsp] at hu
        simp at hu
      | ok b =>
        rw [hsp] at hu
        cases b
        · simp only [Bool.false_eq_true, if_false, Outcome.pre, List.nil_append] at hu
          exact copy_bytes_sends_copied cfg env.cfb env.len env.bfuel rnext 0 u hu
        · simp only [Bool.false_eq_true, if_false, Outcome.pre, List.nil_append] at hu
          exact copy_sparse_sends_copied cfg env.cfb env.nss env.len env.bfuel
            env.sfuel rnext 0 u hu
    · simp at hu

/-- When the reflink attempt succeeds, `copy_file` is pure reflink: it
returns `metadata.len()`, sends nothing and makes no other facade call. -/
theorem copy_file_reflink_ok (cfg : Config) (env : CopyEnv) (idx : Nat)
    (hm : cfg.reflink ≠ Reflink.Never) (hrl : env.rl = Except.ok true) :
    copy_file cfg env idx =
      ⟨Res.ok env.len, [], [FacadeCall.reflinkCall], idx⟩ := by
  unfold copy_file try_reflink
  rw [hrl]
  cases hc : cfg.reflink with
  | Always => rfl
  | Auto => rfl
  | Never => exact absurd hc hm

/-- When the reflink step reports fall-through (`Never` mode, or `Auto`
with a declined reflink), `copy_file` runs the byte path with the same
call index; its sends are exactly the byte path's sends. -/
theorem copy_file_fallthrough (cfg : Config) (env : CopyEnv) (idx : Nat)
    (hrlf : cfg.reflink = Reflink.Never ∨
      (cfg.reflink = Reflink.Auto ∧ env.rl = Except.ok false)) :
    copy_file cfg env idx =
      Outcome.pre [] ((try_reflink cfg env.rl idx).calls ++ [FacadeCall.probablySparseCall])
        (match env.sp with
         | Except.error _ => ⟨Res.err Err.io, [], [], idx⟩
         | Except.ok true =>
           copy_sparse cfg env.cfb env.nss env.len env.bfuel env.sfuel idx 0
         | Except.ok false => copy_bytes cfg env.cfb env.len env.bfuel idx 0) := by
  rcases hrlf with hm | ⟨hm, hrl⟩
  · unfold copy_file try_reflink
    rw [hm]
    unfold copy_file_fallback
    cases hsp : env.sp with
    | error e => simp [Outcome.pre]
    | ok b => cases b <;> simp [Outcome.pre]
  · unfold copy_file try_reflink
    rw [hm, hrl]
    unfold copy_file_fallback
    cases hsp : env.sp with
    | error e => simp [Outcome.pre]
    | ok b => cases b <;> simp [Outcome.pre]

/-- The per-file walker-then-worker composition: for one entry, the
progress updates sent by the walker followed by those sent by the worker
that consumes the enqueued operations, together with the worker's
result.  Within a single file this is exactly the order the channel
sees. -/
def pipeline_file (cfg : Config) (wenv : WorkerEnv) (source target_base : FPath)
    (e : Entry) : List StatusUpdate × Res Unit :=
  ((walk_entry cfg source target_base e).sends
      ++ (run_worker cfg wenv (walk_entry cfg source target_base e).ops).2,
    (run_worker cfg wenv (walk_entry cfg source target_base e).ops).1)

theorem run_worker_single (cfg : Config) (wenv : WorkerEnv) (op : Operation) :
    run_worker cfg wenv [op] = copy_worker_step cfg wenv op := by
  unfold run_worker
  rcases h : copy_worker_step cfg wenv op with ⟨r, s⟩
  cases r <;> simp [run_worker]

theorem walk_entry_file (cfg : Config) (source tb : FPath) (e : Entry)
    (hk : e.kind = FileType.File) (hnc : (cfg.no_clobber && e.targetExists) = false) :
    walk_entry cfg source tb e =
      ⟨[StatusUpdate.Size e.len],
        [Operation.Copy (source ++ e.rel) (if !e.rel.isEmpty then tb ++ e.rel else tb)],
        [], Except.ok ()⟩ := by
  unfold walk_entry
  rw [hnc, hk]
  rfl

/-- An environment where the filesystem accepts the reflink of a 5-byte
file. -/
def envReflinkOk : CopyEnv :=
  ⟨Except.ok true, Except.ok false, fun _ r => Except.ok r,
    fun _ => Except.ok (0, 0), 5, 9, 9⟩

/-- Worker oracles around `envReflinkOk`: handle creation and all other
filesystem calls succeed. -/
def wenvReflinkOk : WorkerEnv :=
  ⟨envReflinkOk, Except.ok (), Except.ok (), Except.ok (), Except.ok (), false⟩

/-- The walker entry for a 5-byte regular file `a`. -/
def entryFive : Entry := ⟨["a"], FileType.File, 5, [], false⟩

/-- Claim C1, counterexample: with `reflink_mode = Always` and a
filesystem that accepts the clone, the 5-byte file copies successfully
yet the per-file trace contains no `Copied` update at all, so the sum of
the `Copied` values is `0`, not the file's walk-time size `5` — refuting
"the sum of all Copied values sent through the progress channel for that
file equals n". -/
theorem pipeline_reflink_no_copied :
    (pipeline_file (Config.mk 4 Reflink.Always false false false false) wenvReflinkOk
        ["s"] ["d"] entryFive).2 = Res.ok ()
    ∧ (pipeline_file (Config.mk 4 Reflink.Always false false false false) wenvReflinkOk
        ["s"] ["d"] entryFive).1 = [StatusUpdate.Size 5]
    ∧ sumCopied (pipeline_file (Config.mk 4 Reflink.Always false false false false)
        wenvReflinkOk ["s"] ["d"] entryFive).1 ≠ entryFive.len := by
  refine ⟨rfl, rfl, ?_⟩
  decide

/-- Claim C1 (amended): for every regular-file entry the walker emits,
the per-file trace is the single `Size(n)` update (`n` the walk-time
length) followed only by non-`Size` updates, so the `Size` precedes every
`Copied` for that file; when the copy succeeds, the sum of the `Copied`
values equals the bytes moved by the byte-copy loop — `n` on the dense
path, the sparse walk's data-segment total on the sparse path, and `0`
when the file was reflinked (in which case the copy still succeeds and
reports `n`). -/
theorem pipeline_file_size_copied_spec (cfg : Config) (wenv : WorkerEnv)
    (source tb : FPath) (e : Entry)
    (hk : e.kind = FileType.File)
    (hnc : (cfg.no_clobber && e.targetExists) = false)
    (hnew : wenv.handleNew = Except.ok ())
    (hlen : wenv.copy.len = e.len)
    (H : cfbBounded wenv.copy.cfb) :
    (∃ rest, (pipeline_file cfg wenv source tb e).1 = StatusUpdate.Size e.len :: rest
        ∧ ∀ m, StatusUpdate.Size m ∉ rest)
    ∧ (cfg.reflink ≠ Reflink.Never → wenv.copy.rl = Except.ok true →
        pipeline_file cfg wenv source tb e = ([StatusUpdate.Size e.len], Res.ok ()))
    ∧ ((cfg.reflink = Reflink.Never ∨
          (cfg.reflink = Reflink.Auto ∧ wenv.copy.rl = Except.ok false)) →
        wenv.copy.sp = Except.ok false →
        (pipeline_file cfg wenv source tb e).2 = Res.ok () →
        sumCopied (pipeline_file cfg wenv source tb e).1 = e.len)
    ∧ ((cfg.reflink = Reflink.Never ∨
          (cfg.reflink = Reflink.Auto ∧ wenv.copy.rl = Except.ok false)) →
        wenv.copy.sp = Except.ok true →
        (pipeline_file cfg wenv source tb e).2 = Res.ok () →
        specDataBytes wenv.copy.nss e.len wenv.copy.sfuel 0 =
          some (sumCopied (pipeline_file cfg wenv source tb e).1)) := by
  have hwalk := walk_entry_file cfg source tb e hk hnc
  have hpipe : pipeline_file cfg wenv source tb e =
      (StatusUpdate.Size e.len ::
        (copy_worker_step cfg wenv (Operation.Copy (source ++ e.rel)
          (if !e.rel.isEmpty then tb ++ e.rel else tb))).2,
       (copy_worker_step cfg wenv (Operation.Copy (source ++ e.rel)
          (if !e.rel.isEmpty then tb ++ e.rel else tb))).1) := by
    unfold pipeline_file
    rw [hwalk, run_worker_single]
    rfl
  rcases hcf : copy_file cfg wenv.copy 0 with ⟨cr, cs, cc, cn⟩
  have hstep : copy_worker_step cfg wenv (Operation.Copy (source ++ e.rel)
      (if !e.rel.isEmpty then tb ++ e.rel else tb)) =
      (match cr with
       | Res.ok _ => (Res.ok (), cs)
       | Res.err e' =>
         (Res.err e', cs ++ [StatusUpdate.Error (XcpError.CopyError (errDetail e'))])
       | Res.spin => (Res.spin, cs)) := by
    unfold copy_worker_step
    rw [hnew]
    simp only [hcf]
    cases cr <;> rfl
  have hcs : ∀ u ∈ cs, ∃ k, u = StatusUpdate.Copied k := by
    intro u hu
    refine copy_file_sends_copied cfg wenv.copy 0 u ?_
    rw [hcf]
    exact hu
  rw [hpipe, hstep]
  refine ⟨?_, ?_, ?_, ?_⟩
  · refine ⟨_, rfl, ?_⟩
    intro m hm
    cases cr with
    | ok v =>
      simp only at hm
      rcases hcs _ hm with ⟨k, hk2⟩
      exact StatusUpdate.noConfusion hk2
    | err e' =>
      simp only [List.mem_append, List.mem_singleton] at hm
      rcases hm with hm | hm
      · rcases hcs _ hm with ⟨k, hk2⟩
        exact StatusUpdate.noConfusion hk2
      · exact StatusUpdate.noConfusion hm
    | spin =>
      simp only at hm
      rcases hcs _ hm with ⟨k, hk2⟩
      exact StatusUpdate.noConfusion hk2
  · intro hm hrl
    have h2 := copy_file_reflink_ok cfg wenv.copy 0 hm hrl
    rw [hcf] at h2
    have h2' : cr = Res.ok wenv.copy.len ∧ cs = [] := by
      refine ⟨?_, ?_⟩
      · exact congrArg Outcome.res h2
      · exact congrArg Outcome.sends h2
    rcases h2' with ⟨hcr, hcse⟩
    subst hcr
    subst hcse
    rfl
  · intro hrlf hsp hok
    have h3 := copy_file_fallthrough cfg wenv.copy 0 hrlf
    rw [hsp, hcf] at h3
    have hcr : cr = (copy_bytes cfg wenv.copy.cfb wenv.copy.len wenv.copy.bfuel 0 0).res := by
      have := congrArg Outcome.res h3
      simpa [Outcome.pre] using this
    have hcseq : cs = (copy_bytes cfg wenv.copy.cfb wenv.copy.len wenv.copy.bfuel 0 0).sends := by
      have := congrArg Outcome.sends h3
      simpa [Outcome.pre] using this
    cases hbr : (copy_bytes cfg wenv.copy.cfb wenv.copy.len wenv.copy.bfuel 0 0).res with
    | ok v =>
      rw [hbr] at hcr
      subst hcr
      have hsum := copy_bytes_ok_sum cfg wenv.copy.cfb wenv.copy.len wenv.copy.bfuel 0 0 v hbr
      have hvl := copy_bytes_ok_eq_len cfg wenv.copy.cfb wenv.copy.len H wenv.copy.bfuel
        0 0 v (Nat.zero_le _) hbr
      simp only [sumCopied]
      rw [hcseq]
      omega
    | err e' =>
      rw [hbr] at hcr
      subst hcr
      simp at hok
    | spin =>
      rw [hbr] at hcr
      subst hcr
      simp at hok
  · intro hrlf hsp hok
    have h4 := copy_file_fallthrough cfg wenv.copy 0 hrlf
    rw [hsp, hcf] at h4
    have hcr : cr = (copy_sparse cfg wenv.copy.cfb wenv.copy.nss wenv.copy.len
        wenv.copy.bfuel wenv.copy.sfuel 0 0).res := by
      have := congrArg Outcome.res h4
      simpa [Outcome.pre] using this
    have hcseq : cs = (copy_sparse cfg wenv.copy.cfb wenv.copy.nss wenv.copy.len
        wenv.copy.bfuel wenv.copy.sfuel 0 0).sends := by
      have := congrArg Outcome.sends h4
      simpa [Outcome.pre] using this
    cases hbr : (copy_sparse cfg wenv.copy.cfb wenv.copy.nss wenv.copy.len
        wenv.copy.bfuel wenv.copy.sfuel 0 0).res with
    | ok v =>
      rw [hbr] at hcr
      subst hcr
      have hsum := copy_sparse_ok_sum cfg wenv.copy.cfb wenv.copy.nss wenv.copy.len
        wenv.copy.bfuel H wenv.copy.sfuel 0 0 v hbr
      simp only [sumCopied]
      rw [hcseq, ← hlen]
      exact hsum
    | err e' =>
      rw [hbr] at hcr
      subst hcr
      simp at hok
    | spin =>
      rw [hbr] at hcr
      subst hcr
      simp at hok

/-- Worker oracles around `envDense`: handle creation and the other
filesystem calls succeed. -/
def wenvDense : WorkerEnv :=
  ⟨envDense, Except.ok (), Except.ok (), Except.ok (), Except.ok (), false⟩

/-- Witness for claim C1 (amended) at a concrete input: a dense copy of
a 5-byte file with block size 4 succeeds and its trace's `Copied` sum is
the file length 5. -/
theorem pipeline_file_size_copied_spec_witness :
    (pipeline_file (Config.mk 4 Reflink.Never false false false false) wenvDense
        ["s"] ["d"] entryFive).2 = Res.ok ()
    ∧ sumCopied (pipeline_file (Config.mk 4 Reflink.Never false false false false) wenvDense
        ["s"] ["d"] entryFive).1 = 5 :=
  ⟨rfl,
   (pipeline_file_size_copied_spec (Config.mk 4 Reflink.Never false false false false)
      wenvDense ["s"] ["d"] entryFive rfl rfl rfl rfl
      (fun _ _ n hn => by injection hn with hn; omega)).2.2.1
     (Or.inl rfl) rfl rfl⟩
